import Mathlib

/-!
Verification of the ranking-scraper repository.

The Glicko rating engine (ranking_scraper/rankingalgorithms/glicko.py) is
embedded over the real numbers: Python floating-point arithmetic is modelled
as exact real arithmetic.  Dictionaries are modelled as association lists
(first match wins, as a Python dict has unique keys).  Functions that raise
ValueError are modelled as Option-returning functions (none = exception).
-/

namespace Glicko

/-- Initial rating (glicko.py BASE_R). -/
def BASE_R : ℝ := 1500

/-- Maximum (and initial) rating deviation (glicko.py BASE_RD). -/
def BASE_RD : ℝ := 350

/-- Minimum rating deviation (glicko.py MINIMUM_RD). -/
def MINIMUM_RD : ℝ := 30

/-- Deviation factor when inactive (glicko.py C). -/
def C : ℝ := 100

/-- Q = ln 10 / 400 (glicko.py Q). -/
noncomputable def Q : ℝ := Real.log 10 / 400

/-- A player rating: mean skill estimate r and deviation rd. -/
structure Rating where
  r : ℝ
  rd : ℝ

/-- Rating.update_deviation: rd is replaced by
max (min (sqrt (rd^2 + (C*factor)^2)) BASE_RD) MINIMUM_RD; a factor outside
the interval 0..1 raises ValueError, modelled by none. -/
noncomputable def Rating.update_deviation (rt : Rating) (factor : ℝ) : Option Rating :=
  haveI := Classical.dec (0 ≤ factor ∧ factor ≤ 1)
  if 0 ≤ factor ∧ factor ≤ 1 then
    some ⟨rt.r, max (min (Real.sqrt (rt.rd ^ 2 + (C * factor) ^ 2)) BASE_RD) MINIMUM_RD⟩
  else none

/-- First-match lookup in an association list (Python dict access). -/
def lookupA {α β : Type*} [DecidableEq α] : List (α × β) → α → Option β
  | [], _ => none
  | (a, b) :: t, k => if a = k then some b else lookupA t k

/-- Python dict assignment d[k] = v: replace the first binding of k in place,
or append a new binding. -/
def insertA {α β : Type*} [DecidableEq α] : List (α × β) → α → β → List (α × β)
  | [], k, v => [(k, v)]
  | (a, b) :: t, k, v => if a = k then (k, v) :: t else (a, b) :: insertA t k v

lemma lookupA_nil {α β : Type*} [DecidableEq α] (k : α) :
    lookupA ([] : List (α × β)) k = none := rfl

lemma lookupA_cons {α β : Type*} [DecidableEq α] (a : α) (b : β)
    (t : List (α × β)) (k : α) :
    lookupA ((a, b) :: t) k = if a = k then some b else lookupA t k := rfl

lemma insertA_nil {α β : Type*} [DecidableEq α] (k : α) (v : β) :
    insertA ([] : List (α × β)) k v = [(k, v)] := rfl

lemma insertA_cons {α β : Type*} [DecidableEq α] (a : α) (b : β)
    (t : List (α × β)) (k : α) (v : β) :
    insertA ((a, b) :: t) k v =
      if a = k then (k, v) :: t else (a, b) :: insertA t k v := rfl

/-- Module-level update_deviation: clone every rating and update its deviation
with that player's factor (default 1.0 for players absent from
deviation_factors).  The first invalid factor aborts the whole call (none). -/
noncomputable def update_deviation {α : Type*} [DecidableEq α] :
    List (α × Rating) → List (α × ℝ) → Option (List (α × Rating))
  | [], _ => some []
  | pr :: t, deviation_factors =>
    match pr.2.update_deviation ((lookupA deviation_factors pr.1).getD 1),
        update_deviation t deviation_factors with
    | some rt, some rest => some ((pr.1, rt) :: rest)
    | _, _ => none

/-- The g function of the Glicko paper (glicko.py _g). -/
noncomputable def _g (rd : ℝ) : ℝ :=
  1 / Real.sqrt (1 + 3 * Q ^ 2 * rd ^ 2 / Real.pi ^ 2)

/-- calculate_expected_outcome from glicko.py. -/
noncomputable def calculate_expected_outcome (r1 r2 : Rating) : ℝ :=
  1 / (1 + (10 : ℝ) ^ (-1 * _g (Real.sqrt (r1.rd ^ 2 + r2.rd ^ 2)) * (r1.r - r2.r) / 400))

/-- The expectation e computed in the update_ranking loop body:
e = 1 / (1 + 10 ^ (-1 * g(rd_opp) * (r_p - r_opp) / 400)). -/
noncomputable def glicko_e (p_old opp_old : Rating) : ℝ :=
  1 / (1 + (10 : ℝ) ^ (-1 * _g opp_old.rd * (p_old.r - opp_old.r) / 400))

/-- Loop body of the won_sets / lost_sets accumulation in update_ranking:
acc is the pair (rating_sum, d_squared accumulator), score is 1 for a win and
0 for a loss, opp is the opponent key. -/
noncomputable def glicko_step {α : Type*} (oldR : α → Rating) (p_old : Rating)
    (score : ℝ) (acc : ℝ × ℝ) (opp : α) : ℝ × ℝ :=
  (acc.1 + _g (oldR opp).rd * (score - glicko_e p_old (oldR opp)),
   acc.2 + _g (oldR opp).rd ^ 2 * glicko_e p_old (oldR opp) * (1 - glicko_e p_old (oldR opp)))

/-- The accumulated pair (rating_sum, raw d_squared sum) for player p: the
won_sets loop (score 1, opponent is the loser slot) followed by the
lost_sets loop (score 0, opponent is the winner slot), starting from (0, 0). -/
noncomputable def glicko_acc {α : Type*} [DecidableEq α]
    (sets : List (α × α)) (oldR : α → Rating) (p : α) : ℝ × ℝ :=
  (sets.filter fun s => s.2 = p).foldl
    (fun acc ls => glicko_step oldR (oldR p) 0 acc ls.1)
    ((sets.filter fun s => s.1 = p).foldl
      (fun acc ws => glicko_step oldR (oldR p) 1 acc ws.2) (0, 0))

/-- The new rating computed for player p inside the update_ranking loop,
reading every rating from the pre-period snapshot oldR; d_squared is
(Q^2 * raw sum)⁻¹ and the new deviation is
max (sqrt ((1/rd^2 + 1/d_squared)⁻¹)) MINIMUM_RD. -/
noncomputable def newRatingFor {α : Type*} [DecidableEq α]
    (sets : List (α × α)) (oldR : α → Rating) (p : α) : Rating :=
  ⟨(oldR p).r +
      Q / (1 / (oldR p).rd ^ 2 + 1 / ((Q ^ 2 * (glicko_acc sets oldR p).2)⁻¹)) *
        (glicko_acc sets oldR p).1,
   max (Real.sqrt (1 / (oldR p).rd ^ 2 + 1 / ((Q ^ 2 * (glicko_acc sets oldR p).2)⁻¹))⁻¹)
     MINIMUM_RD⟩

/-- The set of players rated this period (set union of winners and losers);
membership is what matters, the enumeration order of a Python set is
arbitrary and is passed separately to update_ranking. -/
def playersOf {α : Type*} [DecidableEq α] (sets : List (α × α)) : List α :=
  (sets.map Prod.fst ++ sets.map Prod.snd).dedup

/-- update_ranking from glicko.py.  order is the (arbitrary) enumeration
order of the Python set of players; every lookup of an old rating goes
through the pre-period snapshot, players absent from it read as
(base_r, base_rd). -/
noncomputable def update_ranking {α : Type*} [DecidableEq α] (sets : List (α × α))
    (player_ratings : List (α × Rating)) (order : List α)
    (base_r : ℝ) (base_rd : ℝ) : List (α × Rating) :=
  order.foldl
    (fun acc p =>
      insertA acc p
        (newRatingFor sets (fun q => (lookupA player_ratings q).getD ⟨base_r, base_rd⟩) p))
    player_ratings

end Glicko

namespace Scraper

/-- Outcome of one call to the graphQL client: a response value or an
HTTPError carrying its status code. -/
inductive ReqResult (α : Type) where
  | ok (value : α)
  | httpError (code : ℕ)
deriving DecidableEq

/-- The retry loop of SmashGGScraper._execute_request.  responses gives, per
attempt number, the outcome the network would produce; left is the number of
attempts still allowed after the current one, so left = max_retries -
attempt_nr and the Python guard attempt_nr >= max_retries is left = 0.
Returns the sleep durations performed (in order) and the final outcome; a
raised HTTPError is the httpError result.  Note that wait_time is doubled
before the sleep, and the sleep is capped at max_wait_time. -/
def execLoop {α : Type} (responses : ℕ → ReqResult α) (maxWait : ℚ) :
    ℕ → ℕ → ℚ → List ℚ × ReqResult α
  | left, attemptNr, waitTime =>
    match responses attemptNr with
    | .ok v => ([], .ok v)
    | .httpError code =>
      if code ≠ 429 then ([], .httpError code)
      else
        match left with
        | 0 => ([], .httpError code)
        | left' + 1 =>
          let wt := waitTime * 2
          let rest := execLoop responses maxWait left' (attemptNr + 1) wt
          (min wt maxWait :: rest.1, rest.2)

/-- SmashGGScraper._execute_request: initial try plus max_retries retries
(max_retries is a natural number here, matching max(max_retries, 0)). -/
def _execute_request {α : Type} (responses : ℕ → ReqResult α) (max_retries : ℕ)
    (initial_wait_time max_wait_time : ℚ) : List ℚ × ReqResult α :=
  execLoop responses max_wait_time max_retries 0 initial_wait_time

end Scraper

namespace SmashGG

/-- EventType from model.py. -/
inductive EventType where
  | UNKNOWN
  | SINGLES
  | DOUBLES
deriving DecidableEq

/-- Enum backing values of EventType. -/
def EventType.value : EventType → ℤ
  | .UNKNOWN => 0
  | .SINGLES => 1
  | .DOUBLES => 2

/-- EventFormat from model.py. -/
inductive EventFormat where
  | UNKNOWN
  | ELIMINATION
  | LADDER
deriving DecidableEq

/-- Enum backing values of EventFormat. -/
def EventFormat.value : EventFormat → ℤ
  | .UNKNOWN => 0
  | .ELIMINATION => 1
  | .LADDER => 2

/-- EventState from model.py (only the values used by the scraper). -/
inductive EventState where
  | UNVERIFIED
  | VERIFIED_DATA_INCOMPLETE
  | VERIFIED_MANUAL_OK
  | VERIFIED_OK
  | IGNORE
deriving DecidableEq

/-- Enum backing values of EventState. -/
def EventState.value : EventState → ℤ
  | .UNVERIFIED => 0
  | .VERIFIED_DATA_INCOMPLETE => -1
  | .VERIFIED_MANUAL_OK => 10
  | .VERIFIED_OK => 100
  | .IGNORE => -99

/-- One event node inside a tournament response. -/
structure EvtData where
  id : ℕ
  name : String
  state : String
  isOnline : Bool
  videogameId : ℕ
  numEntrants : Option ℕ
  typeCode : ℕ
deriving DecidableEq

/-- One tournament node of the paged tournaments response. -/
structure TournamentData where
  id : ℕ
  name : String
  countryCode : Option String
  endAt : ℤ
  events : List EvtData
deriving DecidableEq

/-- The Game row the scraper works for. -/
structure GameRow where
  id : ℕ
  sgg_id : ℕ
deriving DecidableEq

/-- A persisted Event row (the columns the scraper writes). -/
structure EventRow where
  sgg_tournament_id : ℕ
  sgg_event_id : ℕ
  game_id : ℕ
  name : String
  country : Option String
  num_entrants : Option ℕ
  end_date : ℤ
  format_code : ℤ
  type_code : ℤ
  state_code : ℤ
deriving DecidableEq

/-- EVENT_TYPE_ENUM_MAP.get(t, EventType.UNKNOWN.value). -/
def EVENT_TYPE_ENUM_MAP_get (t : ℕ) : ℤ :=
  if t = 1 then EventType.SINGLES.value
  else if t = 5 then EventType.DOUBLES.value
  else EventType.UNKNOWN.value

/-- _validate_event_data from smashgg/scraper.py (the entrant threshold
check: a missing or sub-10 entrant count is rejected). -/
def _validate_event_data (event_data : EvtData) (game : GameRow) : Bool :=
  if event_data.state ≠ "COMPLETED" then false
  else if event_data.isOnline = true then false
  else if event_data.videogameId ≠ game.sgg_id then false
  else
    match event_data.numEntrants with
    | none => false
    | some n => if n < 10 then false else true

/-- SmashGGScraper._create_events_from_tournament_dict: one Event candidate
per completed, offline, game-matching, validated event node.  Fields follow
the Event constructor call: tournament id, event id, game id, full name,
country, entrant count, end date, format UNKNOWN, mapped type code, state
UNVERIFIED. -/
def _create_events_from_tournament_dict (td : TournamentData) (game : GameRow) :
    List EventRow :=
  td.events.filterMap fun ed =>
    if ed.state ≠ "COMPLETED" then none
    else if ed.isOnline = true then none
    else if ed.videogameId ≠ game.sgg_id then none
    else if ¬ (_validate_event_data ed game = true) then none
    else some ⟨td.id, ed.id, game.id, td.name ++ " | " ++ ed.name, td.countryCode,
      ed.numEntrants, td.endAt, EventFormat.UNKNOWN.value,
      EVENT_TYPE_ENUM_MAP_get ed.typeCode, EventState.UNVERIFIED.value⟩

/-- The (tournament id, event id) pair of an Event row. -/
def EventRow.sggPair (e : EventRow) : ℕ × ℕ := (e.sgg_tournament_id, e.sgg_event_id)

/-- SmashGGScraper._filter_out_known_events: bulk existence check.  The known
set is read from the stored events whose tournament id occurs among the
candidates; a candidate whose (tournament id, event id) pair is in that set
is dropped. -/
def _filter_out_known_events (stored_events : List EventRow)
    (events : List EventRow) : List EventRow :=
  events.filter fun evt =>
    evt.sggPair ∉
      ((stored_events.filter fun e =>
          e.sgg_tournament_id ∈ events.map fun x => x.sgg_tournament_id).map
        fun e => e.sggPair)

/-- SmashGGScraper._get_events, parametrized by the tournament records
accumulated over all pages: the duplicate-tournament-id sanity check, then
event candidate construction.  The check compares the number of distinct ids
(the Python set size, here the dedup length) with the record count. -/
def _get_events (tournament_dicts : List TournamentData) (game : GameRow) :
    List EventRow :=
  if ((tournament_dicts.map fun t => t.id).dedup.length ≠ tournament_dicts.length) then []
  else (tournament_dicts.map fun td => _create_events_from_tournament_dict td game).flatten

/-- The found_events list accumulated by the country loop of
SmashGGScraper.pull_event_data: one _get_events batch per country filter; an
empty countries argument becomes the single unfiltered pass [none]. -/
def found_events (getTournaments : Option String → List TournamentData)
    (game : GameRow) (countries : List (Option String)) : List EventRow :=
  ((if countries.isEmpty then [(none : Option String)] else countries).map
    fun c => _get_events (getTournaments c) game).flatten

/-- SmashGGScraper.pull_event_data, parametrized by the remote answer per
country filter (getTournaments).  Returns the new events and the stored
table after add_all plus commit. -/
def pull_event_data (getTournaments : Option String → List TournamentData)
    (game : GameRow) (countries : List (Option String))
    (stored_events : List EventRow) : List EventRow × List EventRow :=
  (_filter_out_known_events stored_events (found_events getTournaments game countries),
    stored_events ++
      _filter_out_known_events stored_events (found_events getTournaments game countries))

/-- One slot of a set node: the standing placement and the score value
(None models a null score). -/
structure SlotData where
  placement : ℕ
  score : Option ℤ
deriving DecidableEq

/-- One set node: remote id, start time, participant slots. -/
structure SetData where
  id : ℕ
  startedAt : Option ℤ
  slots : List SlotData
deriving DecidableEq

/-- One slot is a disqualification when its score value is null or
negative. -/
def slot_is_dq (s : SlotData) : Bool :=
  match s.score with
  | none => true
  | some v => v < 0

/-- _set_data_contains_dq from smashgg/scraper.py. -/
def _set_data_contains_dq (sd : SetData) : Bool :=
  sd.slots.any slot_is_dq

/-- SmashGGScraper._get_phase_sets_data, parametrized by the concatenation of
all page responses over all phases: drop DQ sets, then sort by startedAt
(null start times sort as 0); Python sorted is a stable merge sort. -/
def _get_phase_sets_data (all_sets_data : List SetData) : List SetData :=
  (all_sets_data.filter fun sd => ! _set_data_contains_dq sd).mergeSort
    fun a b => a.startedAt.getD 0 ≤ b.startedAt.getD 0

/-- A persisted Set row (the fields relevant to the match data). -/
structure SetRow where
  sgg_id : ℕ
  order : ℕ
  winning_score : Option ℤ
  losing_score : Option ℤ
deriving DecidableEq

/-- One iteration of the _create_sets_from_set_dicts loop: slots sorted by
standing placement destructure into winner and loser; anything but exactly
two slots is the ValueError case (none). -/
def create_set_row (idx : ℕ) (sd : SetData) : Option SetRow :=
  match sd.slots.mergeSort (fun a b => a.placement ≤ b.placement) with
  | [w, l] => some ⟨sd.id, idx, w.score, l.score⟩
  | _ => none

/-- SmashGGScraper._create_sets_from_set_dicts: skip set ids already stored,
then build one Set row per remaining record, ordered by enumeration index. -/
def _create_sets_from_set_dicts (known_set_ids : List ℕ) (set_dicts : List SetData) :
    Option (List SetRow) :=
  (set_dicts.filter fun sd => sd.id ∉ known_set_ids).enum.mapM
    fun p => create_set_row p.1 p.2

/-- One phase node. -/
structure PhaseData where
  id : ℕ
  bracketType : String
deriving DecidableEq

/-- Bracket types treated as elimination-family. -/
def ELIMINATION_FORMATS : List String :=
  ["SINGLE_ELIMINATION", "DOUBLE_ELIMINATION", "ROUND_ROBIN", "SWISS"]

/-- Bracket types treated as ladder-family. -/
def LADDER_FORMATS : List String := ["MATCHMAKING"]

/-- Bracket types known but untracked. -/
def UNKNOWN_FORMATS : List String :=
  ["EXHIBITION", "RACE", "CUSTOM_SCHEDULE", "ELIMINATION_ROUND"]

/-- _find_event_format from smashgg/scraper.py: the all-quantified membership
tests over the distinct bracket types, elimination family first. -/
def _find_event_format (event_phases : List PhaseData) : EventFormat :=
  if ((event_phases.map fun ph => ph.bracketType).dedup.all
      fun bt => bt ∈ ELIMINATION_FORMATS) then .ELIMINATION
  else if ((event_phases.map fun ph => ph.bracketType).dedup.all
      fun bt => bt ∈ LADDER_FORMATS) then .LADDER
  else if ((event_phases.map fun ph => ph.bracketType).dedup.all
      fun bt => bt ∈ UNKNOWN_FORMATS) then .UNKNOWN
  else .UNKNOWN

/-- The format decision path of SmashGGScraper.populate_event: an already
populated event and a DOUBLES or UNKNOWN typed event keep their format; a
SINGLES event gets the classification of its phase list. -/
def populate_event_format (is_populated : Bool) (etype : EventType)
    (current_format : EventFormat) (phases_data : List PhaseData) : EventFormat :=
  if is_populated then current_format
  else if etype = EventType.DOUBLES ∨ etype = EventType.UNKNOWN then current_format
  else _find_event_format phases_data

end SmashGG

namespace Glicko

/-! Supporting lemmas about the rating engine. -/

lemma rpow_ten_pos (x : ℝ) : 0 < (10 : ℝ) ^ x :=
  Real.rpow_pos_of_pos (by norm_num) x

lemma one_div_one_add_inv_sum {t : ℝ} (ht : 0 < t) :
    1 / (1 + t) + 1 / (1 + t⁻¹) = 1 := by
  have h1 : (1 : ℝ) + t ≠ 0 := by positivity
  have h2 : t ≠ 0 := ne_of_gt ht
  have h3 : (1 : ℝ) + t⁻¹ ≠ 0 := by positivity
  field_simp
  ring

lemma glicko_e_pos (p_old opp_old : Rating) : 0 < glicko_e p_old opp_old := by
  unfold glicko_e
  have := rpow_ten_pos (-1 * _g opp_old.rd * (p_old.r - opp_old.r) / 400)
  positivity

lemma glicko_e_le_one (p_old opp_old : Rating) : glicko_e p_old opp_old ≤ 1 := by
  unfold glicko_e
  have h := rpow_ten_pos (-1 * _g opp_old.rd * (p_old.r - opp_old.r) / 400)
  rw [div_le_one (by positivity)]
  linarith

lemma glicko_step_snd_le {α : Type*} (oldR : α → Rating) (p_old : Rating)
    (score : ℝ) (acc : ℝ × ℝ) (opp : α) :
    acc.2 ≤ (glicko_step oldR p_old score acc opp).2 := by
  unfold glicko_step
  have h1 := glicko_e_pos p_old (oldR opp)
  have h2 := glicko_e_le_one p_old (oldR opp)
  have : 0 ≤ _g (oldR opp).rd ^ 2 * glicko_e p_old (oldR opp) *
      (1 - glicko_e p_old (oldR opp)) := by
    apply mul_nonneg (mul_nonneg (sq_nonneg _) h1.le)
    linarith
  simpa using le_add_of_nonneg_right (a := acc.2) this

lemma foldl_glicko_step_snd_le {α β : Type*} (oldR : α → Rating) (p_old : Rating)
    (score : ℝ) (pick : β → α) :
    ∀ (l : List β) (acc : ℝ × ℝ),
      acc.2 ≤ (l.foldl (fun a s => glicko_step oldR p_old score a (pick s)) acc).2 := by
  intro l
  induction l with
  | nil => intro acc; simp
  | cons x t ih =>
    intro acc
    rw [List.foldl_cons]
    exact le_trans (glicko_step_snd_le oldR p_old score acc (pick x)) (ih _)

lemma glicko_acc_snd_nonneg {α : Type*} [DecidableEq α]
    (sets : List (α × α)) (oldR : α → Rating) (p : α) :
    0 ≤ (glicko_acc sets oldR p).2 := by
  unfold glicko_acc
  refine le_trans ?_ (foldl_glicko_step_snd_le oldR (oldR p) 0 Prod.fst _ _)
  refine le_trans ?_ (foldl_glicko_step_snd_le oldR (oldR p) 1 Prod.snd _ _)
  simp

lemma MINIMUM_RD_pos : (0 : ℝ) < MINIMUM_RD := by norm_num [MINIMUM_RD]

lemma newRatingFor_rd_bounds {α : Type*} [DecidableEq α]
    (sets : List (α × α)) (oldR : α → Rating) (p : α)
    (h1 : MINIMUM_RD ≤ (oldR p).rd) (h2 : (oldR p).rd ≤ BASE_RD) :
    MINIMUM_RD ≤ (newRatingFor sets oldR p).rd ∧
      (newRatingFor sets oldR p).rd ≤ BASE_RD := by
  have hrd : 0 < (oldR p).rd := lt_of_lt_of_le MINIMUM_RD_pos h1
  have hS : 0 ≤ (glicko_acc sets oldR p).2 := glicko_acc_snd_nonneg sets oldR p
  have hQS : 0 ≤ Q ^ 2 * (glicko_acc sets oldR p).2 := mul_nonneg (sq_nonneg _) hS
  have hinv : 1 / ((Q ^ 2 * (glicko_acc sets oldR p).2)⁻¹) =
      Q ^ 2 * (glicko_acc sets oldR p).2 := by
    rw [one_div, inv_inv]
  have hge : 1 / (oldR p).rd ^ 2 ≤
      1 / (oldR p).rd ^ 2 + 1 / ((Q ^ 2 * (glicko_acc sets oldR p).2)⁻¹) := by
    rw [hinv]; linarith
  have hpos : 0 < 1 / (oldR p).rd ^ 2 := by positivity
  have hle : (1 / (oldR p).rd ^ 2 + 1 / ((Q ^ 2 * (glicko_acc sets oldR p).2)⁻¹))⁻¹ ≤
      (1 / (oldR p).rd ^ 2)⁻¹ := by
    exact inv_anti₀ hpos hge
  have hsq : (1 / (oldR p).rd ^ 2)⁻¹ = (oldR p).rd ^ 2 := by
    rw [one_div, inv_inv]
  have hsqrt : Real.sqrt (1 / (oldR p).rd ^ 2 +
      1 / ((Q ^ 2 * (glicko_acc sets oldR p).2)⁻¹))⁻¹ ≤ (oldR p).rd := by
    calc Real.sqrt (1 / (oldR p).rd ^ 2 +
          1 / ((Q ^ 2 * (glicko_acc sets oldR p).2)⁻¹))⁻¹
        ≤ Real.sqrt ((oldR p).rd ^ 2) := Real.sqrt_le_sqrt (le_trans hle (le_of_eq hsq))
      _ = (oldR p).rd := Real.sqrt_sq hrd.le
  unfold newRatingFor
  constructor
  · exact le_max_right _ _
  · exact max_le (le_trans hsqrt h2) (by norm_num [MINIMUM_RD, BASE_RD])

lemma update_deviation_of_valid (rt : Rating) {f : ℝ} (h : 0 ≤ f ∧ f ≤ 1) :
    rt.update_deviation f =
      some ⟨rt.r, max (min (Real.sqrt (rt.rd ^ 2 + (C * f) ^ 2)) BASE_RD) MINIMUM_RD⟩ := by
  unfold Rating.update_deviation
  exact if_pos h

lemma update_deviation_of_invalid (rt : Rating) {f : ℝ} (h : ¬(0 ≤ f ∧ f ≤ 1)) :
    rt.update_deviation f = none := by
  unfold Rating.update_deviation
  exact if_neg h

lemma update_deviation_rd_bounds {rt rt' : Rating} {f : ℝ}
    (h : rt.update_deviation f = some rt') :
    MINIMUM_RD ≤ rt'.rd ∧ rt'.rd ≤ BASE_RD := by
  unfold Rating.update_deviation at h
  split_ifs at h with hc
  · obtain rfl := Option.some.inj h
    exact ⟨le_max_right _ _,
      max_le (min_le_right _ _) (by norm_num [MINIMUM_RD, BASE_RD])⟩

lemma update_deviation_map_rd_bounds {α : Type*} [DecidableEq α] :
    ∀ {ratings : List (α × Rating)} {factors : List (α × ℝ)} {res : List (α × Rating)},
      update_deviation ratings factors = some res →
      ∀ y ∈ res, MINIMUM_RD ≤ y.2.rd ∧ y.2.rd ≤ BASE_RD := by
  intro ratings
  induction ratings with
  | nil =>
    intro factors res h y hy
    rw [update_deviation] at h
    obtain rfl := Option.some.inj h
    simp at hy
  | cons pr t ih =>
    intro factors res h y hy
    rw [update_deviation] at h
    rcases h1 : pr.2.update_deviation ((lookupA factors pr.1).getD 1) with _ | rt
    · rw [h1] at h; simp at h
    · rcases h2 : update_deviation t factors with _ | rest
      · rw [h1, h2] at h; simp at h
      · rw [h1, h2] at h
        obtain rfl := Option.some.inj h
        rcases List.mem_cons.mp hy with rfl | hmem
        · exact update_deviation_rd_bounds h1
        · exact ih h2 y hmem

/-- Membership through the update_deviation loop: every output entry is one
input entry with its deviation updated by that player's factor. -/
lemma update_deviation_map_shape {α : Type*} [DecidableEq α] :
    ∀ {ratings : List (α × Rating)} {factors : List (α × ℝ)} {res : List (α × Rating)},
      update_deviation ratings factors = some res →
      ∀ y ∈ res, ∃ x ∈ ratings,
        y.1 = x.1 ∧ x.2.update_deviation ((lookupA factors x.1).getD 1) = some y.2 := by
  intro ratings
  induction ratings with
  | nil =>
    intro factors res h y hy
    rw [update_deviation] at h
    obtain rfl := Option.some.inj h
    simp at hy
  | cons pr t ih =>
    intro factors res h y hy
    rw [update_deviation] at h
    rcases h1 : pr.2.update_deviation ((lookupA factors pr.1).getD 1) with _ | rt
    · rw [h1] at h; simp at h
    · rcases h2 : update_deviation t factors with _ | rest
      · rw [h1, h2] at h; simp at h
      · rw [h1, h2] at h
        obtain rfl := Option.some.inj h
        rcases List.mem_cons.mp hy with rfl | hmem
        · exact ⟨pr, List.mem_cons_self _ _, rfl, h1⟩
        · obtain ⟨x, hx, he⟩ := ih h2 y hmem
          exact ⟨x, List.mem_cons_of_mem _ hx, he⟩

lemma lookupA_mem {α β : Type*} [DecidableEq α] :
    ∀ {l : List (α × β)} {k : α} {b : β}, lookupA l k = some b → (k, b) ∈ l := by
  intro l
  induction l with
  | nil => intro k b h; simp [lookupA_nil] at h
  | cons kv t ih =>
    obtain ⟨a, c⟩ := kv
    intro k b h
    rw [lookupA_cons] at h
    split_ifs at h with hk
    · obtain rfl := Option.some.inj h
      subst hk
      exact List.mem_cons_self _ _
    · exact List.mem_cons_of_mem _ (ih h)

lemma lookupA_insertA {α β : Type*} [DecidableEq α]
    (l : List (α × β)) (k : α) (v : β) (q : α) :
    lookupA (insertA l k v) q = if k = q then some v else lookupA l q := by
  induction l with
  | nil => rw [insertA_nil, lookupA_cons, lookupA_nil]
  | cons kv t ih =>
    obtain ⟨a, c⟩ := kv
    rw [insertA_cons]
    by_cases hk : a = k
    · rw [if_pos hk]
      subst hk
      rw [lookupA_cons, lookupA_cons]
      by_cases h1 : a = q
      · simp only [if_pos h1]
      · simp only [if_neg h1]
    · rw [if_neg hk, lookupA_cons, lookupA_cons, ih]
      by_cases h1 : a = q
      · by_cases h2 : k = q
        · exact absurd (h1.trans h2.symm) hk
        · simp only [if_pos h1, if_neg h2]
      · by_cases h2 : k = q
        · simp only [if_neg h1, if_pos h2]
        · simp only [if_neg h1, if_neg h2]

lemma foldl_insert_lookup {α β : Type*} [DecidableEq α] (f : α → β) :
    ∀ (order : List α) (acc : List (α × β)) (q : α),
      lookupA (order.foldl (fun a p => insertA a p (f p)) acc) q =
        if q ∈ order then some (f q) else lookupA acc q := by
  intro order
  induction order with
  | nil => intro acc q; simp
  | cons p rest ih =>
    intro acc q
    rw [List.foldl_cons, ih, lookupA_insertA]
    by_cases hq : q ∈ rest
    · rw [if_pos hq, if_pos (List.mem_cons_of_mem _ hq)]
    · rw [if_neg hq]
      by_cases hpq : p = q
      · rw [if_pos hpq, if_pos (List.mem_cons.mpr (Or.inl hpq.symm)), hpq]
      · rw [if_neg hpq,
          if_neg (by rw [List.mem_cons]; exact not_or.mpr ⟨fun h => hpq h.symm, hq⟩)]

/-- The value-level characterization of update_ranking: the returned mapping
reads (for players in the iteration order, i.e. the players of the period)
the rating newly computed from the pre-period snapshot, and (for everyone
else) the unchanged prior rating. -/
lemma update_ranking_lookup {α : Type*} [DecidableEq α] (sets : List (α × α))
    (ratings : List (α × Rating)) (order : List α) (br brd : ℝ) (q : α) :
    lookupA (update_ranking sets ratings order br brd) q =
      if q ∈ order then
        some (newRatingFor sets (fun a => (lookupA ratings a).getD ⟨br, brd⟩) q)
      else lookupA ratings q := by
  unfold update_ranking
  exact foldl_insert_lookup _ order ratings q

/-- If some player present in the mapping has an out-of-range looked-up
factor, the whole update_deviation call raises (returns none). -/
lemma update_deviation_eq_none {α : Type*} [DecidableEq α] :
    ∀ {ratings : List (α × Rating)} {factors : List (α × ℝ)},
      (∃ x ∈ ratings,
        ¬(0 ≤ (lookupA factors x.1).getD 1 ∧ (lookupA factors x.1).getD 1 ≤ 1)) →
      update_deviation ratings factors = none := by
  intro ratings
  induction ratings with
  | nil =>
    intro factors h
    simp at h
  | cons pr t ih =>
    intro factors h
    rw [update_deviation]
    obtain ⟨x, hx, hbad⟩ := h
    rcases List.mem_cons.mp hx with rfl | hxt
    · rw [update_deviation_of_invalid _ hbad]
    · rw [ih ⟨x, hxt, hbad⟩]
      cases pr.2.update_deviation ((lookupA factors pr.1).getD 1) <;> rfl

/-- A factor entry keyed to a player absent from the rating mapping is never
read: pushing such an entry onto the factors leaves the result unchanged. -/
lemma update_deviation_cons_factor_absent {α : Type*} [DecidableEq α] :
    ∀ {ratings : List (α × Rating)} (factors : List (α × ℝ)) (k : α) (f : ℝ),
      (∀ x ∈ ratings, x.1 ≠ k) →
      update_deviation ratings ((k, f) :: factors) = update_deviation ratings factors := by
  intro ratings
  induction ratings with
  | nil => intro factors k f _; rfl
  | cons pr t ih =>
    intro factors k f h
    rw [update_deviation, update_deviation]
    have hpr : pr.1 ≠ k := h pr (List.mem_cons_self _ _)
    have hlk : lookupA ((k, f) :: factors) pr.1 = lookupA factors pr.1 := by
      rw [lookupA_cons, if_neg (fun hc => hpr hc.symm)]
    rw [hlk, ih factors k f (fun x hx => h x (List.mem_cons_of_mem _ hx))]

end Glicko

namespace Scraper

/-! Supporting lemmas about the retry loop. -/

lemma execLoop_ok {α : Type} {responses : ℕ → ReqResult α} {maxW : ℚ}
    {a : ℕ} {v : α} (left : ℕ) (w : ℚ) (h : responses a = ReqResult.ok v) :
    execLoop responses maxW left a w = ([], ReqResult.ok v) := by
  rw [execLoop, h]

lemma execLoop_err {α : Type} {responses : ℕ → ReqResult α} {maxW : ℚ}
    {a c : ℕ} (left : ℕ) (w : ℚ) (h : responses a = ReqResult.httpError c)
    (hc : c ≠ 429) :
    execLoop responses maxW left a w = ([], ReqResult.httpError c) := by
  rw [execLoop, h]
  simp [hc]

lemma execLoop_429_zero {α : Type} {responses : ℕ → ReqResult α} {maxW : ℚ}
    {a : ℕ} (w : ℚ) (h : responses a = ReqResult.httpError 429) :
    execLoop responses maxW 0 a w = ([], ReqResult.httpError 429) := by
  rw [execLoop, h]
  simp

lemma execLoop_429_succ {α : Type} {responses : ℕ → ReqResult α} {maxW : ℚ}
    {a : ℕ} (left : ℕ) (w : ℚ) (h : responses a = ReqResult.httpError 429) :
    execLoop responses maxW (left + 1) a w =
      (min (w * 2) maxW :: (execLoop responses maxW left (a + 1) (w * 2)).1,
        (execLoop responses maxW left (a + 1) (w * 2)).2) := by
  rw [execLoop, h]
  simp

lemma execLoop_sleeps {α : Type} {responses : ℕ → ReqResult α} {maxW : ℚ} :
    ∀ (k a left : ℕ) (w : ℚ),
      (∀ i, i ≤ k → responses (a + i) = ReqResult.httpError 429) → k < left →
      (execLoop responses maxW left a w).1[k]? = some (min (w * 2 ^ (k + 1)) maxW) := by
  intro k
  induction k with
  | zero =>
    intro a left w h hk
    obtain ⟨left', rfl⟩ : ∃ l, left = l + 1 := ⟨left - 1, by omega⟩
    have ha : responses a = ReqResult.httpError 429 := by simpa using h 0 (le_refl 0)
    rw [execLoop_429_succ _ _ ha]
    norm_num
  | succ k ih =>
    intro a left w h hk
    obtain ⟨left', rfl⟩ : ∃ l, left = l + 1 := ⟨left - 1, by omega⟩
    have ha : responses a = ReqResult.httpError 429 := by simpa using h 0 (by omega)
    rw [execLoop_429_succ _ _ ha]
    show (min (w * 2) maxW :: (execLoop responses maxW left' (a + 1) (w * 2)).1)[k + 1]? = _
    rw [List.getElem?_cons_succ]
    rw [ih (a + 1) left' (w * 2) (fun i hi => by
      have hwhole := h (i + 1) (by omega)
      rwa [show a + (i + 1) = a + 1 + i by omega] at hwhole) (by omega)]
    congr 2
    ring

lemma execLoop_length_le {α : Type} {responses : ℕ → ReqResult α} {maxW : ℚ} :
    ∀ (left a : ℕ) (w : ℚ), (execLoop responses maxW left a w).1.length ≤ left := by
  intro left
  induction left with
  | zero =>
    intro a w
    rcases hr : responses a with v | c
    · rw [execLoop_ok _ _ hr]; simp
    · by_cases hc : c = 429
      · subst hc; rw [execLoop_429_zero _ hr]; simp
      · rw [execLoop_err _ _ hr hc]; simp
  | succ l ih =>
    intro a w
    rcases hr : responses a with v | c
    · rw [execLoop_ok _ _ hr]; simp
    · by_cases hc : c = 429
      · subst hc
        rw [execLoop_429_succ _ _ hr]
        simpa using Nat.succ_le_succ (ih (a + 1) (w * 2))
      · rw [execLoop_err _ _ hr hc]; simp

lemma execLoop_non429 {α : Type} {responses : ℕ → ReqResult α} {maxW : ℚ} :
    ∀ (n a left : ℕ) (w : ℚ) (c : ℕ), c ≠ 429 →
      (∀ i, i < n → responses (a + i) = ReqResult.httpError 429) →
      n ≤ left → responses (a + n) = ReqResult.httpError c →
      (execLoop responses maxW left a w).1.length = n ∧
        (execLoop responses maxW left a w).2 = ReqResult.httpError c := by
  intro n
  induction n with
  | zero =>
    intro a left w c hc h hn hr
    rw [add_zero] at hr
    rw [execLoop_err _ _ hr hc]
    simp
  | succ n ih =>
    intro a left w c hc h hn hr
    obtain ⟨left', rfl⟩ : ∃ l, left = l + 1 := ⟨left - 1, by omega⟩
    have ha : responses a = ReqResult.httpError 429 := by simpa using h 0 (by omega)
    rw [execLoop_429_succ _ _ ha]
    have hrec := ih (a + 1) left' (w * 2) c hc
      (fun i hi => by
        have hwhole := h (i + 1) (by omega)
        rwa [show a + (i + 1) = a + 1 + i by omega] at hwhole)
      (by omega)
      (by rwa [show a + 1 + n = a + (n + 1) by omega])
    simp [hrec.1, hrec.2]

lemma execLoop_exhaust {α : Type} {responses : ℕ → ReqResult α} {maxW : ℚ} :
    ∀ (left a : ℕ) (w : ℚ),
      (∀ i, i ≤ left → responses (a + i) = ReqResult.httpError 429) →
      (execLoop responses maxW left a w).1.length = left ∧
        (execLoop responses maxW left a w).2 = ReqResult.httpError 429 := by
  intro left
  induction left with
  | zero =>
    intro a w h
    have ha : responses a = ReqResult.httpError 429 := by simpa using h 0 (le_refl 0)
    rw [execLoop_429_zero _ ha]
    simp
  | succ l ih =>
    intro a w h
    have ha : responses a = ReqResult.httpError 429 := by simpa using h 0 (by omega)
    rw [execLoop_429_succ _ _ ha]
    have hrec := ih (a + 1) (w * 2) (fun i hi => by
      have hwhole := h (i + 1) (by omega)
      rwa [show a + (i + 1) = a + 1 + i by omega] at hwhole)
    simp [hrec.1, hrec.2]

end Scraper

namespace SmashGG

/-! Supporting lemmas about the harvester. -/

lemma mem_filter_out_known {stored events : List EventRow} {e : EventRow} :
    e ∈ _filter_out_known_events stored events ↔
      e ∈ events ∧
        e.sggPair ∉ ((stored.filter fun s =>
            s.sgg_tournament_id ∈ events.map fun x => x.sgg_tournament_id).map
          fun s => s.sggPair) := by
  unfold _filter_out_known_events
  rw [List.mem_filter]
  simp only [decide_eq_true_eq]

lemma new_events_pair_not_stored {stored events : List EventRow} {e : EventRow}
    (he : e ∈ _filter_out_known_events stored events) :
    e ∈ events ∧ e.sggPair ∉ stored.map EventRow.sggPair := by
  obtain ⟨hev, hnk⟩ := mem_filter_out_known.mp he
  refine ⟨hev, fun hmem => hnk ?_⟩
  obtain ⟨s, hs, hpair⟩ := List.mem_map.mp hmem
  refine List.mem_map.mpr ⟨s, List.mem_filter.mpr ⟨hs, ?_⟩, hpair⟩
  simp only [decide_eq_true_eq]
  have htid : s.sgg_tournament_id = e.sgg_tournament_id := congrArg Prod.fst hpair
  rw [htid]
  exact List.mem_map.mpr ⟨e, hev, rfl⟩

lemma second_run_empty (stored events : List EventRow) :
    _filter_out_known_events (stored ++ _filter_out_known_events stored events) events
      = [] := by
  rw [List.eq_nil_iff_forall_not_mem]
  intro e he
  obtain ⟨hev, hnk⟩ := mem_filter_out_known.mp he
  apply hnk
  by_cases hk : e.sggPair ∈ ((stored.filter fun s =>
      s.sgg_tournament_id ∈ events.map fun x => x.sgg_tournament_id).map fun s => s.sggPair)
  · obtain ⟨s, hs, hpair⟩ := List.mem_map.mp hk
    obtain ⟨hs_mem, hs_cond⟩ := List.mem_filter.mp hs
    exact List.mem_map.mpr
      ⟨s, List.mem_filter.mpr ⟨List.mem_append_left _ hs_mem, hs_cond⟩, hpair⟩
  · have he1 : e ∈ _filter_out_known_events stored events :=
      mem_filter_out_known.mpr ⟨hev, hk⟩
    refine List.mem_map.mpr
      ⟨e, List.mem_filter.mpr ⟨List.mem_append_right _ he1, ?_⟩, rfl⟩
    simp only [decide_eq_true_eq]
    exact List.mem_map.mpr ⟨e, hev, rfl⟩

lemma mapM_option_mem {γ δ : Type} (f : γ → Option δ) :
    ∀ {l : List γ} {ys : List δ}, l.mapM f = some ys →
      ∀ y ∈ ys, ∃ x ∈ l, f x = some y := by
  intro l
  induction l with
  | nil =>
    intro ys h y hy
    rw [List.mapM_nil] at h
    obtain rfl := Option.some.inj h
    simp at hy
  | cons x t ih =>
    intro ys h y hy
    rw [List.mapM_cons] at h
    rcases hfx : f x with _ | b
    · rw [hfx] at h; simp at h
    · rcases hmt : t.mapM f with _ | bs
      · rw [hfx, hmt] at h; simp at h
      · rw [hfx, hmt] at h
        simp only [Option.bind_eq_bind, Option.some_bind, Option.pure_def] at h
        obtain rfl := Option.some.inj h
        rcases List.mem_cons.mp hy with rfl | hmem
        · exact ⟨x, List.mem_cons_self _ _, hfx⟩
        · obtain ⟨x', hx', hfx'⟩ := ih hmt y hmem
          exact ⟨x', List.mem_cons_of_mem _ hx', hfx'⟩

lemma enum_snd_mem {γ : Type*} {l : List γ} {p : ℕ × γ} (h : p ∈ l.enum) : p.2 ∈ l := by
  obtain ⟨i, x⟩ := p
  obtain ⟨hi, hx⟩ := List.mem_enum h
  exact hx ▸ List.getElem_mem hi

lemma create_set_row_id {idx : ℕ} {sd : SetData} {r : SetRow}
    (h : create_set_row idx sd = some r) : r.sgg_id = sd.id := by
  unfold create_set_row at h
  split at h
  · obtain rfl := Option.some.inj h
    rfl
  · exact absurd h (by simp)

lemma slot_is_dq_iff (s : SlotData) :
    slot_is_dq s = true ↔ s.score = none ∨ ∃ v, s.score = some v ∧ v < 0 := by
  unfold slot_is_dq
  rcases hsc : s.score with _ | v
  · simp
  · simp

lemma set_data_contains_dq_iff (sd : SetData) :
    _set_data_contains_dq sd = true ↔
      ∃ s ∈ sd.slots, s.score = none ∨ ∃ v, s.score = some v ∧ v < 0 := by
  unfold _set_data_contains_dq
  rw [List.any_eq_true]
  constructor
  · rintro ⟨s, hs, hdq⟩
    exact ⟨s, hs, (slot_is_dq_iff s).mp hdq⟩
  · rintro ⟨s, hs, hdq⟩
    exact ⟨s, hs, (slot_is_dq_iff s).mpr hdq⟩

lemma mem_get_phase_sets_data {all : List SetData} {x : SetData}
    (h : x ∈ _get_phase_sets_data all) :
    x ∈ all ∧ _set_data_contains_dq x = false := by
  unfold _get_phase_sets_data at h
  rw [List.mem_mergeSort] at h
  obtain ⟨hmem, hpred⟩ := List.mem_filter.mp h
  exact ⟨hmem, by simpa using hpred⟩

lemma found_events_skip {getT : Option String → List TournamentData} {game : GameRow}
    {c : Option String} (cs₁ cs₂ : List (Option String))
    (hzero : _get_events (getT c) game = [])
    (hne : cs₁ ++ cs₂ ≠ []) :
    found_events getT game (cs₁ ++ c :: cs₂) = found_events getT game (cs₁ ++ cs₂) := by
  unfold found_events
  have h1 : ¬((cs₁ ++ c :: cs₂).isEmpty = true) := by
    simp [List.isEmpty_iff]
  have h2 : ¬((cs₁ ++ cs₂).isEmpty = true) := by
    simp [List.isEmpty_iff, hne]
  rw [if_neg h1, if_neg h2]
  simp [List.map_append, List.flatten_append, hzero]

end SmashGG

/-! Claim theorems. -/

/-- Claim C2: for every pair of ratings a and b, calculate_expected_outcome
a b plus calculate_expected_outcome b a equals 1 exactly over the reals,
because the g function is applied to the symmetric combined deviation
sqrt (rd_a^2 + rd_b^2) in both directions. -/
theorem claim_C2_expected_outcome_symm (a b : Glicko.Rating) :
    Glicko.calculate_expected_outcome a b + Glicko.calculate_expected_outcome b a = 1 := by
  unfold Glicko.calculate_expected_outcome
  have hsym : Real.sqrt (b.rd ^ 2 + a.rd ^ 2) = Real.sqrt (a.rd ^ 2 + b.rd ^ 2) := by
    rw [add_comm]
  rw [hsym]
  have hx : -1 * Glicko._g (Real.sqrt (a.rd ^ 2 + b.rd ^ 2)) * (b.r - a.r) / 400 =
      -(-1 * Glicko._g (Real.sqrt (a.rd ^ 2 + b.rd ^ 2)) * (a.r - b.r) / 400) := by
    ring
  rw [hx, Real.rpow_neg (by norm_num : (0:ℝ) ≤ 10)]
  exact Glicko.one_div_one_add_inv_sum (Glicko.rpow_ten_pos _)

/-- Claim C5: for every rating with deviation in the interval MINIMUM_RD ..
BASE_RD, the decay step with activity factor 0 leaves the rating unchanged,
and the decay step with activity factor 1 strictly increases the deviation
unless it already equals BASE_RD, in which case it stays BASE_RD. -/
theorem claim_C5_deviation_decay (rt : Glicko.Rating)
    (h1 : Glicko.MINIMUM_RD ≤ rt.rd) (h2 : rt.rd ≤ Glicko.BASE_RD) :
    rt.update_deviation 0 = some rt ∧
    ∃ rt', rt.update_deviation 1 = some rt' ∧
      (rt.rd < Glicko.BASE_RD → rt.rd < rt'.rd) ∧
      (rt.rd = Glicko.BASE_RD → rt'.rd = Glicko.BASE_RD) := by
  have hrd0 : (0:ℝ) ≤ rt.rd := le_trans Glicko.MINIMUM_RD_pos.le h1
  constructor
  · rw [Glicko.update_deviation_of_valid rt (by norm_num)]
    have hc : (Glicko.C * 0) ^ 2 = 0 := by norm_num
    rw [hc, add_zero, Real.sqrt_sq hrd0, min_eq_left h2, max_eq_left h1]
  · refine ⟨_, Glicko.update_deviation_of_valid rt (by norm_num), ?_, ?_⟩
    · intro hlt
      show rt.rd <
        max (min (Real.sqrt (rt.rd ^ 2 + (Glicko.C * 1) ^ 2)) Glicko.BASE_RD) Glicko.MINIMUM_RD
      have hsq : rt.rd ^ 2 < rt.rd ^ 2 + (Glicko.C * 1) ^ 2 := by norm_num [Glicko.C]
      have hs : rt.rd < Real.sqrt (rt.rd ^ 2 + (Glicko.C * 1) ^ 2) := by
        calc rt.rd = Real.sqrt (rt.rd ^ 2) := (Real.sqrt_sq hrd0).symm
          _ < _ := Real.sqrt_lt_sqrt (sq_nonneg _) hsq
      exact lt_of_lt_of_le (lt_min hs hlt) (le_max_left _ _)
    · intro heq
      show max (min (Real.sqrt (rt.rd ^ 2 + (Glicko.C * 1) ^ 2)) Glicko.BASE_RD)
        Glicko.MINIMUM_RD = Glicko.BASE_RD
      rw [heq]
      have hge : Glicko.BASE_RD ≤ Real.sqrt (Glicko.BASE_RD ^ 2 + (Glicko.C * 1) ^ 2) := by
        calc Glicko.BASE_RD = Real.sqrt (Glicko.BASE_RD ^ 2) :=
            (Real.sqrt_sq (by norm_num [Glicko.BASE_RD])).symm
          _ ≤ _ := Real.sqrt_le_sqrt (by norm_num [Glicko.C])
      rw [min_eq_right hge, max_eq_left (by norm_num [Glicko.MINIMUM_RD, Glicko.BASE_RD])]

/-- Witness for claim C5 at the concrete rating (1500, 100). -/
theorem claim_C5_deviation_decay_witness :
    (Glicko.Rating.mk 1500 100).update_deviation 0 = some (Glicko.Rating.mk 1500 100) ∧
    ∃ rt', (Glicko.Rating.mk 1500 100).update_deviation 1 = some rt' ∧
      ((Glicko.Rating.mk 1500 100).rd < Glicko.BASE_RD →
        (Glicko.Rating.mk 1500 100).rd < rt'.rd) ∧
      ((Glicko.Rating.mk 1500 100).rd = Glicko.BASE_RD → rt'.rd = Glicko.BASE_RD) :=
  claim_C5_deviation_decay (Glicko.Rating.mk 1500 100)
    (by norm_num [Glicko.MINIMUM_RD]) (by norm_num [Glicko.BASE_RD])

/-- Claim C1: for a rating mapping whose deviations all lie in MINIMUM_RD ..
BASE_RD, every rating in the mapping returned by update_deviation (any
factors) and every rating in the mapping returned by update_ranking (any set
list, any enumeration order of the rated players) has a deviation in
MINIMUM_RD .. BASE_RD; in particular the deviation produced by the update
formula never exceeds BASE_RD even though update_ranking only clamps from
below. -/
theorem claim_C1_rating_bounds {α : Type} [DecidableEq α]
    (ratings : List (α × Glicko.Rating))
    (hb : ∀ x ∈ ratings, Glicko.MINIMUM_RD ≤ x.2.rd ∧ x.2.rd ≤ Glicko.BASE_RD) :
    (∀ (factors : List (α × ℝ)) (res : List (α × Glicko.Rating)),
        Glicko.update_deviation ratings factors = some res →
        ∀ y ∈ res, Glicko.MINIMUM_RD ≤ y.2.rd ∧ y.2.rd ≤ Glicko.BASE_RD) ∧
    (∀ (sets : List (α × α)) (order : List α) (q : α) (rt : Glicko.Rating),
        (∀ p ∈ order, p ∈ Glicko.playersOf sets) →
        Glicko.lookupA
            (Glicko.update_ranking sets ratings order Glicko.BASE_R Glicko.BASE_RD) q
          = some rt →
        Glicko.MINIMUM_RD ≤ rt.rd ∧ rt.rd ≤ Glicko.BASE_RD) := by
  constructor
  · intro factors res h y hy
    exact Glicko.update_deviation_map_rd_bounds h y hy
  · intro sets order q rt _ h
    rw [Glicko.update_ranking_lookup] at h
    split_ifs at h with hq
    · obtain rfl := Option.some.inj h
      apply Glicko.newRatingFor_rd_bounds
      · dsimp only
        rcases hl : Glicko.lookupA ratings q with _ | x
        · simp only [hl, Option.getD_none]
          norm_num [Glicko.MINIMUM_RD, Glicko.BASE_RD]
        · simp only [hl, Option.getD_some]
          exact (hb (q, x) (Glicko.lookupA_mem hl)).1
      · dsimp only
        rcases hl : Glicko.lookupA ratings q with _ | x
        · simp only [hl, Option.getD_none]
          exact le_refl _
        · simp only [hl, Option.getD_some]
          exact (hb (q, x) (Glicko.lookupA_mem hl)).2
    · exact hb (q, rt) (Glicko.lookupA_mem h)

/-- Witness for claim C1 at the concrete mapping with one player rated
(1500, 350). -/
theorem claim_C1_rating_bounds_witness :
    (∀ (factors : List (ℕ × ℝ)) (res : List (ℕ × Glicko.Rating)),
        Glicko.update_deviation [(0, Glicko.Rating.mk 1500 350)] factors = some res →
        ∀ y ∈ res, Glicko.MINIMUM_RD ≤ y.2.rd ∧ y.2.rd ≤ Glicko.BASE_RD) ∧
    (∀ (sets : List (ℕ × ℕ)) (order : List ℕ) (q : ℕ) (rt : Glicko.Rating),
        (∀ p ∈ order, p ∈ Glicko.playersOf sets) →
        Glicko.lookupA
            (Glicko.update_ranking sets [(0, Glicko.Rating.mk 1500 350)] order
              Glicko.BASE_R Glicko.BASE_RD) q
          = some rt →
        Glicko.MINIMUM_RD ≤ rt.rd ∧ rt.rd ≤ Glicko.BASE_RD) :=
  claim_C1_rating_bounds [(0, Glicko.Rating.mk 1500 350)] (by
    intro x hx
    rw [List.mem_singleton] at hx
    subst hx
    norm_num [Glicko.MINIMUM_RD, Glicko.BASE_RD])

/-- Claim C4: update_ranking computes each rated competitor's new rating
using only the pre-period snapshot (competitors absent from the snapshot
read as (BASE_R, BASE_RD)), and the resulting mapping is independent of the
enumeration order of the rated players: any two orders enumerating the
players of the period give the same lookups, and both agree with the
per-player formula over the snapshot. -/
theorem claim_C4_simultaneous_update {α : Type} [DecidableEq α] (sets : List (α × α))
    (ratings : List (α × Glicko.Rating)) (order₁ order₂ : List α) (q : α)
    (h1 : order₁.toFinset = (Glicko.playersOf sets).toFinset)
    (h2 : order₂.toFinset = (Glicko.playersOf sets).toFinset) :
    Glicko.lookupA (Glicko.update_ranking sets ratings order₁
        Glicko.BASE_R Glicko.BASE_RD) q =
      (if q ∈ Glicko.playersOf sets then
        some (Glicko.newRatingFor sets
          (fun a => (Glicko.lookupA ratings a).getD ⟨Glicko.BASE_R, Glicko.BASE_RD⟩) q)
      else Glicko.lookupA ratings q) ∧
    Glicko.lookupA (Glicko.update_ranking sets ratings order₁
        Glicko.BASE_R Glicko.BASE_RD) q =
      Glicko.lookupA (Glicko.update_ranking sets ratings order₂
        Glicko.BASE_R Glicko.BASE_RD) q := by
  have key : ∀ order : List α, order.toFinset = (Glicko.playersOf sets).toFinset →
      Glicko.lookupA (Glicko.update_ranking sets ratings order
          Glicko.BASE_R Glicko.BASE_RD) q =
        (if q ∈ Glicko.playersOf sets then
          some (Glicko.newRatingFor sets
            (fun a => (Glicko.lookupA ratings a).getD ⟨Glicko.BASE_R, Glicko.BASE_RD⟩) q)
        else Glicko.lookupA ratings q) := by
    intro order ho
    rw [Glicko.update_ranking_lookup]
    have hmem : q ∈ order ↔ q ∈ Glicko.playersOf sets := by
      rw [← List.mem_toFinset, ho, List.mem_toFinset]
    by_cases hq : q ∈ Glicko.playersOf sets
    · rw [if_pos (hmem.mpr hq), if_pos hq]
    · rw [if_neg (fun hc => hq (hmem.mp hc)), if_neg hq]
  exact ⟨key order₁ h1, (key order₁ h1).trans (key order₂ h2).symm⟩

/-- Witness for claim C4 at the concrete set list [(0, 1)] with the two
enumeration orders [0, 1] and [1, 0]. -/
theorem claim_C4_simultaneous_update_witness :
    Glicko.lookupA (Glicko.update_ranking [((0:ℕ), 1)] [] [0, 1]
        Glicko.BASE_R Glicko.BASE_RD) 0 =
      (if (0:ℕ) ∈ Glicko.playersOf [((0:ℕ), 1)] then
        some (Glicko.newRatingFor [((0:ℕ), 1)]
          (fun a => (Glicko.lookupA ([] : List (ℕ × Glicko.Rating)) a).getD
            ⟨Glicko.BASE_R, Glicko.BASE_RD⟩) 0)
      else Glicko.lookupA ([] : List (ℕ × Glicko.Rating)) 0) ∧
    Glicko.lookupA (Glicko.update_ranking [((0:ℕ), 1)] [] [0, 1]
        Glicko.BASE_R Glicko.BASE_RD) 0 =
      Glicko.lookupA (Glicko.update_ranking [((0:ℕ), 1)] [] [1, 0]
        Glicko.BASE_R Glicko.BASE_RD) 0 :=
  claim_C4_simultaneous_update [((0:ℕ), 1)] [] [0, 1] [1, 0] 0 (by decide) (by decide)

/-- Claim C6 (amended): update_deviation fails (raises, modelled none) when
the factor looked up for a competitor present in the prior rating mapping is
outside 0 .. 1 and returns no partial result; but a factor entry keyed to a
competitor absent from the mapping is never read, hence never rejected:
adding such an entry leaves the result unchanged. -/
theorem claim_C6_factor_validation {α : Type} [DecidableEq α]
    (ratings : List (α × Glicko.Rating)) (factors : List (α × ℝ)) (k : α) (f : ℝ)
    (h1 : ∃ x ∈ ratings,
      ¬(0 ≤ (Glicko.lookupA factors x.1).getD 1 ∧ (Glicko.lookupA factors x.1).getD 1 ≤ 1))
    (h2 : ∀ x ∈ ratings, x.1 ≠ k) :
    Glicko.update_deviation ratings factors = none ∧
    Glicko.update_deviation ratings ((k, f) :: factors) =
      Glicko.update_deviation ratings factors :=
  ⟨Glicko.update_deviation_eq_none h1,
    Glicko.update_deviation_cons_factor_absent factors k f h2⟩

/-- Witness for claim C6 at a mapping with one player whose supplied factor
is 2 and an extra factor entry for the absent key 5. -/
theorem claim_C6_factor_validation_witness :
    Glicko.update_deviation [((0:ℕ), Glicko.Rating.mk 1500 100)] [((0:ℕ), (2:ℝ))] = none ∧
    Glicko.update_deviation [((0:ℕ), Glicko.Rating.mk 1500 100)]
        (((5:ℕ), (7:ℝ)) :: [((0:ℕ), (2:ℝ))]) =
      Glicko.update_deviation [((0:ℕ), Glicko.Rating.mk 1500 100)] [((0:ℕ), (2:ℝ))] :=
  claim_C6_factor_validation [((0:ℕ), Glicko.Rating.mk 1500 100)] [((0:ℕ), (2:ℝ))] 5 7
    (by
      refine ⟨(0, Glicko.Rating.mk 1500 100), List.mem_singleton.mpr rfl, ?_⟩
      rw [Glicko.lookupA_cons, if_pos rfl, Option.getD_some]
      norm_num)
    (by
      intro x hx
      rw [List.mem_singleton] at hx
      subst hx
      norm_num)

/-- Counterexample for claim C6 as stated: a factor entry keyed to a
competitor absent from the prior rating mapping is not rejected even when it
lies outside 0 .. 1 — the call succeeds (isSome) although the supplied
factor 2 is invalid. -/
theorem claim_C6_counterexample :
    (Glicko.update_deviation [((1:ℕ), Glicko.Rating.mk 1500 100)]
      [((0:ℕ), (2:ℝ))]).isSome = true ∧ ¬((0:ℝ) ≤ 2 ∧ (2:ℝ) ≤ 1) := by
  constructor
  · rw [Glicko.update_deviation]
    have hlk : Glicko.lookupA [((0:ℕ), (2:ℝ))] 1 = none := by
      rw [Glicko.lookupA_cons, if_neg (by norm_num), Glicko.lookupA_nil]
    rw [hlk, Option.getD_none, Glicko.update_deviation_of_valid _ (by norm_num),
      Glicko.update_deviation]
    rfl
  · norm_num

/-- Claim C3 (amended): in the retry wrapper, a rate-limited (429) request on
attempt number a (first try = attempt 0) is retried after sleeping
min (initial_wait_time * 2 ^ (a + 1), max_wait_time) seconds — the wait is
doubled before the sleep, so the exponent starts at 1, not 0 — for at most 5
retries beyond the first attempt; a non-429 error propagates immediately
with no further sleeps, and a 429 on the final allowed attempt propagates
after exactly 5 sleeps. -/
theorem claim_C3_backoff {α : Type} (responses : ℕ → Scraper.ReqResult α) (w0 maxW : ℚ) :
    (∀ k, k < 5 → (∀ i, i ≤ k → responses i = Scraper.ReqResult.httpError 429) →
      (Scraper._execute_request responses 5 w0 maxW).1[k]? =
        some (min (w0 * 2 ^ (k + 1)) maxW)) ∧
    (∀ n c, c ≠ 429 → n ≤ 5 →
      (∀ i, i < n → responses i = Scraper.ReqResult.httpError 429) →
      responses n = Scraper.ReqResult.httpError c →
      (Scraper._execute_request responses 5 w0 maxW).1.length = n ∧
        (Scraper._execute_request responses 5 w0 maxW).2 = Scraper.ReqResult.httpError c) ∧
    ((∀ i, i ≤ 5 → responses i = Scraper.ReqResult.httpError 429) →
      (Scraper._execute_request responses 5 w0 maxW).1.length = 5 ∧
        (Scraper._execute_request responses 5 w0 maxW).2 =
          Scraper.ReqResult.httpError 429) ∧
    (Scraper._execute_request responses 5 w0 maxW).1.length ≤ 5 := by
  unfold Scraper._execute_request
  refine ⟨?_, ?_, ?_, ?_⟩
  · intro k hk h
    exact Scraper.execLoop_sleeps k 0 5 w0 (fun i hi => by simpa using h i hi) hk
  · intro n c hc hn h hr
    exact Scraper.execLoop_non429 n 0 5 w0 c hc (fun i hi => by simpa using h i hi) hn
      (by simpa using hr)
  · intro h
    exact Scraper.execLoop_exhaust 5 0 w0 (fun i hi => by simpa using h i hi)
  · exact Scraper.execLoop_length_le 5 0 w0

/-- Witness for claim C3 with an always-rate-limited network, initial wait 1
and cap 60: the sleep after the first attempt is min (1 * 2 ^ 1, 60). -/
theorem claim_C3_backoff_witness :
    (Scraper._execute_request
        (fun _ => (Scraper.ReqResult.httpError 429 : Scraper.ReqResult Unit)) 5 1 60).1[0]? =
      some (min ((1:ℚ) * 2 ^ (0 + 1)) 60) :=
  (claim_C3_backoff (fun _ => (Scraper.ReqResult.httpError 429 : Scraper.ReqResult Unit))
    1 60).1 0 (by norm_num) (fun i _ => rfl)

/-- Counterexample for claim C3 as stated: with initial wait 1, the sleep
after attempt 0 is 2, not initial_wait_time * 2 ^ 0 = 1 — wait_time is
doubled before the sleep. -/
theorem claim_C3_counterexample :
    (Scraper._execute_request
        (fun _ => (Scraper.ReqResult.httpError 429 : Scraper.ReqResult Unit)) 5 1 60).1[0]? =
      some 2 ∧ (2:ℚ) ≠ min ((1:ℚ) * 2 ^ 0) 60 := by
  constructor
  · have h := @Scraper.execLoop_sleeps Unit
      (fun _ => Scraper.ReqResult.httpError 429) 60 0 0 5 1 (fun i _ => rfl) (by norm_num)
    unfold Scraper._execute_request
    rw [h]
    norm_num
  · norm_num

/-- Claim C7 (amended): for every countries argument (repeated filters
included) and every store, fetch_events never persists an Event whose
(tournament id, event id) pair is already present in storage, and a second
run with identical parameters against the resulting store creates zero new
Events — both unconditionally; the persisted table keeps pairwise distinct
pairs provided it had them and the candidates fetched across the country
filters carry pairwise distinct pairs (for example distinct filters).
(With repeated or overlapping country filters one call can fetch the same
candidate twice and persist both copies — the known-pair check only
consults the store.) -/
theorem claim_C7_event_dedup (getT : Option String → List SmashGG.TournamentData)
    (game : SmashGG.GameRow) (countries : List (Option String))
    (stored : List SmashGG.EventRow) :
    (∀ e ∈ (SmashGG.pull_event_data getT game countries stored).1,
      e.sggPair ∉ stored.map SmashGG.EventRow.sggPair) ∧
    ((stored.map SmashGG.EventRow.sggPair).Nodup →
      ((SmashGG.found_events getT game countries).map SmashGG.EventRow.sggPair).Nodup →
      ((SmashGG.pull_event_data getT game countries stored).2.map
        SmashGG.EventRow.sggPair).Nodup) ∧
    (SmashGG.pull_event_data getT game countries
      (SmashGG.pull_event_data getT game countries stored).2).1 = [] := by
  refine ⟨?_, ?_, ?_⟩
  · intro e he
    exact (SmashGG.new_events_pair_not_stored he).2
  · intro h1 h2
    show ((stored ++ SmashGG._filter_out_known_events stored
      (SmashGG.found_events getT game countries)).map SmashGG.EventRow.sggPair).Nodup
    rw [List.map_append, List.nodup_append]
    refine ⟨h1, ?_, ?_⟩
    · have hsub : (SmashGG._filter_out_known_events stored
          (SmashGG.found_events getT game countries)).Sublist
          (SmashGG.found_events getT game countries) := List.filter_sublist _
      exact h2.sublist (List.Sublist.map _ hsub)
    · intro a ha hb
      obtain ⟨e, he, rfl⟩ := List.mem_map.mp hb
      exact (SmashGG.new_events_pair_not_stored he).2 ha
  · exact SmashGG.second_run_empty stored (SmashGG.found_events getT game countries)

/-- Witness for claim C7: one Belgian tournament with one valid event,
fetched through the single filter BE against an empty store. -/
theorem claim_C7_event_dedup_witness :
    (∀ e ∈ (SmashGG.pull_event_data
        (fun c => if c = some "BE" then
          [⟨7, "T", some "BE", 0, [⟨3, "E", "COMPLETED", false, 9, some 12, 1⟩]⟩] else [])
        ⟨1, 9⟩ [some "BE"] []).1,
      e.sggPair ∉ ([] : List SmashGG.EventRow).map SmashGG.EventRow.sggPair) ∧
    ((SmashGG.pull_event_data
        (fun c => if c = some "BE" then
          [⟨7, "T", some "BE", 0, [⟨3, "E", "COMPLETED", false, 9, some 12, 1⟩]⟩] else [])
        ⟨1, 9⟩ [some "BE"] []).2.map SmashGG.EventRow.sggPair).Nodup ∧
    (SmashGG.pull_event_data
        (fun c => if c = some "BE" then
          [⟨7, "T", some "BE", 0, [⟨3, "E", "COMPLETED", false, 9, some 12, 1⟩]⟩] else [])
        ⟨1, 9⟩ [some "BE"]
        (SmashGG.pull_event_data
          (fun c => if c = some "BE" then
            [⟨7, "T", some "BE", 0, [⟨3, "E", "COMPLETED", false, 9, some 12, 1⟩]⟩] else [])
          ⟨1, 9⟩ [some "BE"] []).2).1 = [] := by
  have H := claim_C7_event_dedup
    (fun c => if c = some "BE" then
      [⟨7, "T", some "BE", 0, [⟨3, "E", "COMPLETED", false, 9, some 12, 1⟩]⟩] else [])
    ⟨1, 9⟩ [some "BE"] []
  exact ⟨H.1, H.2.1 (by decide) (by decide), H.2.2⟩

/-- Counterexample for claim C7 as stated: with the repeated country filter
list [BE, BE] the same candidate is fetched twice and persisted twice, so
two persisted Events share their (tournament id, event id) pair. -/
theorem claim_C7_counterexample :
    ¬(((SmashGG.pull_event_data
        (fun c => if c = some "BE" then
          [⟨7, "T", some "BE", 0, [⟨3, "E", "COMPLETED", false, 9, some 12, 1⟩]⟩] else [])
        ⟨1, 9⟩ [some "BE", some "BE"] []).2.map SmashGG.EventRow.sggPair).Nodup) := by
  decide

/-- Claim C9: for a country filter whose accumulated tournament records have
fewer distinct tournament ids than records, the whole batch for that filter
yields zero Event candidates, and fetch_events on a countries list
containing that filter behaves exactly as on the list with the filter
removed (the remaining filters are processed normally). -/
theorem claim_C9_duplicate_page_guard (getT : Option String → List SmashGG.TournamentData)
    (game : SmashGG.GameRow) (c : Option String) (cs₁ cs₂ : List (Option String))
    (stored : List SmashGG.EventRow)
    (hdup : ((getT c).map fun t => t.id).dedup.length < (getT c).length)
    (hne : cs₁ ++ cs₂ ≠ []) :
    SmashGG._get_events (getT c) game = [] ∧
    SmashGG.pull_event_data getT game (cs₁ ++ c :: cs₂) stored =
      SmashGG.pull_event_data getT game (cs₁ ++ cs₂) stored := by
  have hzero : SmashGG._get_events (getT c) game = [] := by
    unfold SmashGG._get_events
    rw [if_pos (ne_of_lt hdup)]
  refine ⟨hzero, ?_⟩
  unfold SmashGG.pull_event_data
  rw [SmashGG.found_events_skip cs₁ cs₂ hzero hne]

/-- Witness for claim C9: a batch with the duplicated tournament id 1 under
the unfiltered pass, next to the country filter X. -/
theorem claim_C9_duplicate_page_guard_witness :
    SmashGG._get_events
        ((fun _ => [⟨1, "A", none, 0, []⟩, ⟨1, "B", none, 0, []⟩] :
          Option String → List SmashGG.TournamentData) none) ⟨1, 9⟩ = [] ∧
    SmashGG.pull_event_data
        (fun _ => [⟨1, "A", none, 0, []⟩, ⟨1, "B", none, 0, []⟩]) ⟨1, 9⟩
        ([some "X"] ++ none :: []) [] =
      SmashGG.pull_event_data
        (fun _ => [⟨1, "A", none, 0, []⟩, ⟨1, "B", none, 0, []⟩]) ⟨1, 9⟩
        ([some "X"] ++ []) [] :=
  claim_C9_duplicate_page_guard
    (fun _ => [⟨1, "A", none, 0, []⟩, ⟨1, "B", none, 0, []⟩]) ⟨1, 9⟩ none
    [some "X"] [] [] (by decide) (by decide)

/-- Claim C8: a set record is classified a disqualification iff at least one
participant slot's score value is null or negative, and every such record is
removed before sorting and before Set construction, so a disqualified record
never yields a persisted Match. -/
theorem claim_C8_dq_filtering (sd : SmashGG.SetData) (all : List SmashGG.SetData)
    (known : List ℕ) (rows : List SmashGG.SetRow)
    (h : SmashGG._create_sets_from_set_dicts known (SmashGG._get_phase_sets_data all)
      = some rows) :
    (SmashGG._set_data_contains_dq sd = true ↔
      ∃ s ∈ sd.slots, s.score = none ∨ ∃ v, s.score = some v ∧ v < 0) ∧
    (∀ x ∈ SmashGG._get_phase_sets_data all, SmashGG._set_data_contains_dq x = false) ∧
    (∀ r ∈ rows, ∃ x ∈ all,
      SmashGG._set_data_contains_dq x = false ∧ r.sgg_id = x.id) := by
  refine ⟨SmashGG.set_data_contains_dq_iff sd, ?_, ?_⟩
  · intro x hx
    exact (SmashGG.mem_get_phase_sets_data hx).2
  · intro r hr
    unfold SmashGG._create_sets_from_set_dicts at h
    obtain ⟨p, hp, hcr⟩ := SmashGG.mapM_option_mem _ h r hr
    obtain ⟨hmem, _⟩ := List.mem_filter.mp (SmashGG.enum_snd_mem hp)
    obtain ⟨hall, hdq⟩ := SmashGG.mem_get_phase_sets_data hmem
    exact ⟨p.2, hall, hdq, SmashGG.create_set_row_id hcr⟩

/-- Claim C10: classify_format applied to an empty phase list returns
elimination (the elimination-family membership test is vacuously true over
an empty set of bracket labels and that branch is checked first), so a
SINGLES event with an empty remote phase list has its format set to
elimination by populate_event, not to unknown. -/
theorem claim_C10_empty_phases (fmt : SmashGG.EventFormat) :
    SmashGG._find_event_format [] = SmashGG.EventFormat.ELIMINATION ∧
    SmashGG.populate_event_format false SmashGG.EventType.SINGLES fmt [] =
      SmashGG.EventFormat.ELIMINATION := by
  constructor
  · rfl
  · rfl

/-- Witness for claim C8: a DQ set (null score) for the classification iff,
and one clean set with scores 2 and 0 flowing through filtering, sorting and
Set construction. -/
theorem claim_C8_dq_filtering_witness :
    (SmashGG._set_data_contains_dq ⟨9, none, [⟨1, none⟩]⟩ = true ↔
      ∃ s ∈ (⟨9, none, [⟨1, none⟩]⟩ : SmashGG.SetData).slots,
        s.score = none ∨ ∃ v, s.score = some v ∧ v < 0) ∧
    (∀ x ∈ SmashGG._get_phase_sets_data [⟨1, some 5, [⟨1, some 2⟩, ⟨2, some 0⟩]⟩],
      SmashGG._set_data_contains_dq x = false) ∧
    (∀ r ∈ [(⟨1, 0, some 2, some 0⟩ : SmashGG.SetRow)],
      ∃ x ∈ [(⟨1, some 5, [⟨1, some 2⟩, ⟨2, some 0⟩]⟩ : SmashGG.SetData)],
        SmashGG._set_data_contains_dq x = false ∧ r.sgg_id = x.id) :=
  claim_C8_dq_filtering ⟨9, none, [⟨1, none⟩]⟩
    [⟨1, some 5, [⟨1, some 2⟩, ⟨2, some 0⟩]⟩] [] [⟨1, 0, some 2, some 0⟩]
    (by
      have hps : SmashGG._get_phase_sets_data [⟨1, some 5, [⟨1, some 2⟩, ⟨2, some 0⟩]⟩] =
          [⟨1, some 5, [⟨1, some 2⟩, ⟨2, some 0⟩]⟩] := by
        unfold SmashGG._get_phase_sets_data
        rw [show List.filter (fun sd => ! SmashGG._set_data_contains_dq sd)
            [(⟨1, some 5, [⟨1, some 2⟩, ⟨2, some 0⟩]⟩ : SmashGG.SetData)] =
            [⟨1, some 5, [⟨1, some 2⟩, ⟨2, some 0⟩]⟩] from rfl]
        exact List.mergeSort_singleton _
      rw [hps]
      unfold SmashGG._create_sets_from_set_dicts
      have hcr : SmashGG.create_set_row 0 ⟨1, some 5, [⟨1, some 2⟩, ⟨2, some 0⟩]⟩ =
          some ⟨1, 0, some 2, some 0⟩ := by
        unfold SmashGG.create_set_row
        rw [List.mergeSort_of_sorted (by decide)]
      rw [show List.filter (fun sd => decide (sd.id ∉ ([] : List ℕ)))
          [(⟨1, some 5, [⟨1, some 2⟩, ⟨2, some 0⟩]⟩ : SmashGG.SetData)] =
          [⟨1, some 5, [⟨1, some 2⟩, ⟨2, some 0⟩]⟩] from rfl]
      rw [List.enum_cons, List.mapM_cons, hcr]
      rfl)
